import Mathlib

/-!
Verification of the scenario evaluation engine of `lyscripts.predict`
(`prevalences.py` and `risks.py`).

The development shallowly embeds the functions of the two modules:

* pandas boolean masks become the `Mask` type (a Python scalar `bool`, or a
  boolean series aligned with the rows of a table);
* a diagnostic cell of the clinical table is an `Option Bool` (`none` models a
  pandas `NaN`; pandas evaluates `NaN == v` to `False` and `NaN != v` to
  `True`, which is exactly the behaviour of `Option.beq` against `some v`);
* floating point arithmetic is embedded as exact rational arithmetic;
* the external `lymph` model is an opaque collaborator: its `likelihood` and
  `risk` methods become function-valued fields of the `LymphModel` variants.
-/

/-- String constant for the early tumor stage. -/
def stage_early : String := "early"

/-- String constant for the late tumor stage. -/
def stage_late : String := "late"

/-- String constant for the stage-marginalization marker. -/
def stage_early_late : String := "early/late"

/-- String constant for the ipsilateral side. -/
def side_ipsi : String := "ipsi"

/-- String constant for the contralateral side. -/
def side_contra : String := "contra"

/-- One row of diagnostic cells of a (side-specific slice of a) clinical
table: for each lymph node level, either an observed boolean or `none`
(a pandas `NaN`). -/
def CellRow : Type := String → Option Bool

/-- A pattern side, as the Python `Dict[str, Optional[bool]]`: `none` models a
key that is absent from the dictionary, `some none` a key explicitly mapped to
`None` (Unknown), and `some (some v)` a constraint. -/
def PatternF : Type := String → Option (Option Bool)

/-- A pandas object that is either still the Python scalar `bool` it was
initialized with, or a boolean series over the rows of a table.  The match
index of `get_match_idx` starts as the scalar `not invert` and becomes a
series as soon as one level constrains it. -/
inductive Mask where
  | scalar : Bool → Mask
  | series : List Bool → Mask
deriving DecidableEq

/-- Conjunction of a mask with a boolean column, following the pandas
broadcasting of `match_idx &= column`: a scalar is broadcast over the column,
a series is combined pointwise. -/
def mask_and (m : Mask) (col : List Bool) : Mask :=
  match m with
  | .scalar b => .series (col.map (fun c => b && c))
  | .series bs => .series (List.zipWith (fun a c => a && c) bs col)

/-- Disjunction of a mask with a boolean column, following the pandas
broadcasting of `match_idx |= column`. -/
def mask_or (m : Mask) (col : List Bool) : Mask :=
  match m with
  | .scalar b => .series (col.map (fun c => b || c))
  | .series bs => .series (List.zipWith (fun a c => a || c) bs col)

/-- Pointwise logical negation of a mask. -/
def mask_not (m : Mask) : Mask :=
  match m with
  | .scalar b => .scalar (!b)
  | .series bs => .series (bs.map (fun b => !b))

/-- Embeds `get_match_idx` of `lyscripts/predict/prevalences.py`: fold over
the requested `lnls`; a level that is absent from the pattern or mapped to
`None` is skipped; otherwise normal mode conjoins the equality column
`data[lnl] == pattern[lnl]` onto the mask and inverted mode disjoins the
inequality column `data[lnl] != pattern[lnl]`. -/
def get_match_idx (match_idx : Mask) (pattern : PatternF) (data : List CellRow)
    (lnls : List String) (invert : Bool) : Mask :=
  lnls.foldl
    (fun acc lnl =>
      match pattern lnl with
      | some (some v) =>
          if invert then mask_or acc (data.map (fun row => row lnl != some v))
          else mask_and acc (data.map (fun row => row lnl == some v))
      | _ => acc)
    match_idx

/-- The levels of `lnls` that actually constrain the match: those present in
the pattern and not mapped to `None`, with their required value. -/
def constrained_levels (pattern : PatternF) (lnls : List String) :
    List (String × Bool) :=
  lnls.filterMap (fun lnl =>
    match pattern lnl with
    | some (some v) => some (lnl, v)
    | _ => none)

/-- Conjunction of the per-level equality tests of a row against the
constrained levels (the spec formula for normal-mode matching). -/
def row_matches_all (row : CellRow) (cs : List (String × Bool)) : Bool :=
  cs.all (fun c => row c.1 == some c.2)

/-- Disjunction of the per-level inequality tests of a row against the
constrained levels (the spec formula for inverted-mode matching). -/
def row_mismatches_any (row : CellRow) (cs : List (String × Bool)) : Bool :=
  cs.any (fun c => row c.1 != some c.2)

lemma get_match_idx_nil (m : Mask) (p : PatternF) (data : List CellRow)
    (invert : Bool) : get_match_idx m p data [] invert = m := rfl

lemma get_match_idx_cons_absent {p : PatternF} {l : String}
    (h : p l = none) (m : Mask) (data : List CellRow) (ls : List String)
    (invert : Bool) :
    get_match_idx m p data (l :: ls) invert = get_match_idx m p data ls invert := by
  simp [get_match_idx, h]

lemma get_match_idx_cons_unknown {p : PatternF} {l : String}
    (h : p l = some none) (m : Mask) (data : List CellRow) (ls : List String)
    (invert : Bool) :
    get_match_idx m p data (l :: ls) invert = get_match_idx m p data ls invert := by
  simp [get_match_idx, h]

lemma get_match_idx_cons_val {p : PatternF} {l : String} {v : Bool}
    (h : p l = some (some v)) (m : Mask) (data : List CellRow) (ls : List String)
    (invert : Bool) :
    get_match_idx m p data (l :: ls) invert =
      get_match_idx
        (if invert then mask_or m (data.map (fun row => row l != some v))
         else mask_and m (data.map (fun row => row l == some v)))
        p data ls invert := by
  simp [get_match_idx, h]

lemma constrained_levels_nil (p : PatternF) : constrained_levels p [] = [] := rfl

lemma constrained_levels_cons_absent {p : PatternF} {l : String}
    (h : p l = none) (ls : List String) :
    constrained_levels p (l :: ls) = constrained_levels p ls := by
  simp [constrained_levels, List.filterMap_cons, h]

lemma constrained_levels_cons_unknown {p : PatternF} {l : String}
    (h : p l = some none) (ls : List String) :
    constrained_levels p (l :: ls) = constrained_levels p ls := by
  simp [constrained_levels, List.filterMap_cons, h]

lemma constrained_levels_cons_val {p : PatternF} {l : String} {v : Bool}
    (h : p l = some (some v)) (ls : List String) :
    constrained_levels p (l :: ls) = (l, v) :: constrained_levels p ls := by
  simp [constrained_levels, List.filterMap_cons, h]

lemma zipWith_fst_of_length_eq {α β : Type} :
    ∀ (as : List α) (bs : List β), as.length = bs.length →
      List.zipWith (fun a _ => a) as bs = as := by
  intro as
  induction as with
  | nil => intro bs _; simp
  | cons a as ih =>
      intro bs h
      cases bs with
      | nil => simp at h
      | cons b bs => simp_all

lemma zipWith_zipWith_map {α : Type} (h : Bool → Bool → Bool)
    (g : α → Bool) (F : Bool → α → Bool) :
    ∀ (as : List Bool) (ds : List α),
      List.zipWith F (List.zipWith (fun a c => h a c) as (ds.map g)) ds =
        List.zipWith (fun a r => F (h a (g r)) r) as ds := by
  intro as
  induction as with
  | nil => intro ds; simp
  | cons a as ih =>
      intro ds
      cases ds with
      | nil => simp
      | cons d ds => simp [ih]

lemma zipWith_map_left {α : Type} (g : α → Bool) (F : Bool → α → Bool) :
    ∀ ds : List α,
      List.zipWith F (ds.map g) ds = ds.map (fun r => F (g r) r) := by
  intro ds
  induction ds with
  | nil => simp
  | cons d ds ih => simp [ih]

lemma get_match_idx_series_and (p : PatternF) :
    ∀ (lnls : List String) (init : List Bool) (data : List CellRow),
      init.length = data.length →
      get_match_idx (.series init) p data lnls false =
        .series (List.zipWith
          (fun b r => b && row_matches_all r (constrained_levels p lnls))
          init data) := by
  intro lnls
  induction lnls with
  | nil =>
      intro init data h
      rw [get_match_idx_nil, constrained_levels_nil]
      simp only [row_matches_all, List.all_nil, Bool.and_true]
      rw [zipWith_fst_of_length_eq init data h]
  | cons l ls ih =>
      intro init data h
      match hp : p l with
      | none =>
          rw [get_match_idx_cons_absent hp, constrained_levels_cons_absent hp,
            ih init data h]
      | some none =>
          rw [get_match_idx_cons_unknown hp, constrained_levels_cons_unknown hp,
            ih init data h]
      | some (some v) =>
          rw [get_match_idx_cons_val hp, constrained_levels_cons_val hp]
          simp only [Bool.false_eq_true, if_false, mask_and]
          rw [ih (List.zipWith (fun a c => a && c) init
              (data.map (fun row => row l == some v))) data
              (by simp [List.length_zipWith, h])]
          rw [zipWith_zipWith_map (fun a c => a && c)
            (fun row => row l == some v)
            (fun b r => b && row_matches_all r (constrained_levels p ls))
            init data]
          simp only [row_matches_all, List.all_cons, Bool.and_assoc]

lemma get_match_idx_series_or (p : PatternF) :
    ∀ (lnls : List String) (init : List Bool) (data : List CellRow),
      init.length = data.length →
      get_match_idx (.series init) p data lnls true =
        .series (List.zipWith
          (fun b r => b || row_mismatches_any r (constrained_levels p lnls))
          init data) := by
  intro lnls
  induction lnls with
  | nil =>
      intro init data h
      rw [get_match_idx_nil, constrained_levels_nil]
      simp only [row_mismatches_any, List.any_nil, Bool.or_false]
      rw [zipWith_fst_of_length_eq init data h]
  | cons l ls ih =>
      intro init data h
      match hp : p l with
      | none =>
          rw [get_match_idx_cons_absent hp, constrained_levels_cons_absent hp,
            ih init data h]
      | some none =>
          rw [get_match_idx_cons_unknown hp, constrained_levels_cons_unknown hp,
            ih init data h]
      | some (some v) =>
          rw [get_match_idx_cons_val hp, constrained_levels_cons_val hp]
          simp only [if_true, mask_or]
          rw [ih (List.zipWith (fun a c => a || c) init
              (data.map (fun row => row l != some v))) data
              (by simp [List.length_zipWith, h])]
          rw [zipWith_zipWith_map (fun a c => a || c)
            (fun row => row l != some v)
            (fun b r => b || row_mismatches_any r (constrained_levels p ls))
            init data]
          simp only [row_mismatches_any, List.any_cons, Bool.or_assoc]

lemma get_match_idx_scalar_and (p : PatternF) (b : Bool) :
    ∀ (lnls : List String) (data : List CellRow),
      get_match_idx (.scalar b) p data lnls false =
        if (constrained_levels p lnls).isEmpty then .scalar b
        else .series (data.map
          (fun r => b && row_matches_all r (constrained_levels p lnls))) := by
  intro lnls
  induction lnls with
  | nil => intro data; simp [get_match_idx_nil, constrained_levels_nil]
  | cons l ls ih =>
      intro data
      match hp : p l with
      | none =>
          rw [get_match_idx_cons_absent hp, constrained_levels_cons_absent hp,
            ih data]
      | some none =>
          rw [get_match_idx_cons_unknown hp, constrained_levels_cons_unknown hp,
            ih data]
      | some (some v) =>
          rw [get_match_idx_cons_val hp, constrained_levels_cons_val hp]
          simp only [Bool.false_eq_true, if_false, mask_and, List.isEmpty_cons]
          rw [get_match_idx_series_and p ls
            (List.map (fun c => b && c) (data.map (fun row => row l == some v)))
            data (by simp)]
          simp only [List.map_map, Function.comp_def]
          rw [zipWith_map_left
            (fun row => b && (row l == some v))
            (fun x r => x && row_matches_all r (constrained_levels p ls)) data]
          simp only [row_matches_all, List.all_cons, Bool.and_assoc]

lemma get_match_idx_scalar_or (p : PatternF) (b : Bool) :
    ∀ (lnls : List String) (data : List CellRow),
      get_match_idx (.scalar b) p data lnls true =
        if (constrained_levels p lnls).isEmpty then .scalar b
        else .series (data.map
          (fun r => b || row_mismatches_any r (constrained_levels p lnls))) := by
  intro lnls
  induction lnls with
  | nil => intro data; simp [get_match_idx_nil, constrained_levels_nil]
  | cons l ls ih =>
      intro data
      match hp : p l with
      | none =>
          rw [get_match_idx_cons_absent hp, constrained_levels_cons_absent hp,
            ih data]
      | some none =>
          rw [get_match_idx_cons_unknown hp, constrained_levels_cons_unknown hp,
            ih data]
      | some (some v) =>
          rw [get_match_idx_cons_val hp, constrained_levels_cons_val hp]
          simp only [if_true, mask_or, List.isEmpty_cons, Bool.false_eq_true,
            if_false]
          rw [get_match_idx_series_or p ls
            (List.map (fun c => b || c) (data.map (fun row => row l != some v)))
            data (by simp)]
          simp only [List.map_map, Function.comp_def]
          rw [zipWith_map_left
            (fun row => b || (row l != some v))
            (fun x r => x || row_mismatches_any r (constrained_levels p ls)) data]
          simp only [row_mismatches_any, List.any_cons, Bool.or_assoc]

/-- A side-structured pattern, the Python `Dict[str, Dict[str, Optional[bool]]]`
with keys `ipsi` and `contra`. -/
structure SidedPattern where
  ipsi : PatternF
  contra : PatternF

/-- Modelled from the spec: `complete_pattern` is imported from
`lyscripts.predict.utils`, which is not among the sources.  Spec 4.1: for
every level in `levels` not present (or explicitly null) in the pattern,
insert Unknown; levels outside `levels` are left as they are.  This is the
per-side operation. -/
def complete_side (p : PatternF) (lnls : List String) : PatternF :=
  fun l =>
    if l ∈ lnls then
      match p l with
      | none => some none
      | some none => some none
      | some (some v) => some (some v)
    else p l

/-- Modelled from the spec: `complete_pattern` operates per side when the
pattern is side-structured (spec 4.1). -/
def complete_pattern (p : SidedPattern) (lnls : List String) : SidedPattern :=
  ⟨complete_side p.ipsi lnls, complete_side p.contra lnls⟩

/-- A pattern side with every level of `lnls` Unknown, used by the cleaning
of an absent optional pattern. -/
def unknown_side (lnls : List String) : PatternF :=
  fun l => if l ∈ lnls then some none else none

/-- Modelled from the spec: `clean_pattern` is imported from
`lyscripts.predict.utils`, which is not among the sources.  Spec 4.1 calls it
a semantically equivalent normalization of `complete_pattern` on the risk
path; it also accepts an absent pattern (the optional `given_diagnosis`),
which it turns into the all-Unknown pattern. -/
def clean_pattern (p : Option SidedPattern) (lnls : List String) : SidedPattern :=
  match p with
  | none => ⟨unknown_side lnls, unknown_side lnls⟩
  | some q => complete_pattern q lnls

/-- One patient row of the clinical table: the `info` fields and, for the
chosen diagnostic modality, the cell of every (side, level) column.  A
unilateral table stores its flat level columns under the `ipsi` side. -/
structure Row where
  t_stage : String
  midline_extension : Bool
  cells : String → String → Option Bool

/-- The clinical table: `bilateral = true` models a column hierarchy of depth
3, `bilateral = false` one of depth 2.  `lnlColumns` lists the lymph node
level columns present under the modality, used by the `dropna` step. -/
structure Table where
  bilateral : Bool
  lnlColumns : List String
  rows : List Row

/-- Embeds `does_t_stage_match`: the boolean row mask that is true where the
patient stage equals `t_stage`, or, for the marker `early/late`, where it is
one of the two canonical stages.  Depth 2 and depth 3 tables use the same
comparison. -/
def does_t_stage_match (data : Table) (t_stage : String) : List Bool :=
  data.rows.map (fun r =>
    if t_stage == stage_early_late then
      r.t_stage == stage_early || r.t_stage == stage_late
    else r.t_stage == t_stage)

/-- Embeds `does_midline_ext_match`: the Python scalar `True` when
`midline_ext` is `None` or the table is unilateral, otherwise the boolean row
mask of the `midline_extension` indicator. -/
def does_midline_ext_match (data : Table) (midline_ext : Option Bool) : Mask :=
  match midline_ext with
  | none => .scalar true
  | some b =>
      if data.bilateral then
        .series (data.rows.map (fun r => r.midline_extension == b))
      else .scalar true

/-- The eligible sub-table of `compute_observed_prevalence`: rows selected by
the conjunction of the stage and midline masks, with the rows dropped whose
modality cells are all `NaN` (`dropna(axis=index, how=all)`). -/
def eligible_rows (data : Table) (t_stage : String) (midline_ext : Option Bool) :
    List Row :=
  let tmask := does_t_stage_match data t_stage
  let combined :=
    match does_midline_ext_match data midline_ext with
    | .scalar b => tmask.map (fun a => a && b)
    | .series ms => List.zipWith (fun a c => a && c) tmask ms
  let selected := (combined.zip data.rows).filterMap
    (fun pr => if pr.1 then some pr.2 else none)
  let sides := if data.bilateral then [side_ipsi, side_contra] else [side_ipsi]
  selected.filter (fun r =>
    sides.any (fun s => data.lnlColumns.any (fun l => (r.cells s l).isSome)))

/-- Embeds `compute_observed_prevalence`: complete the pattern, select the
eligible rows, fold the per-side match index starting from the Python scalar
`not invert`, and count.  When the match index is still a scalar (no level
constrained anything), the pandas lookup `eligible_data.loc[scalar]` raises a
`KeyError` that the function catches, returning `0` matches for inverted
queries and all eligible rows otherwise. -/
def compute_observed_prevalence (pattern : SidedPattern) (data : Table)
    (lnls : List String) (t_stage : String) (midline_ext : Option Bool)
    (invert : Bool) : Nat × Nat :=
  let pattern := complete_pattern pattern lnls
  let eligible := eligible_rows data t_stage midline_ext
  let do_lnls_match :=
    if !data.bilateral then
      get_match_idx (.scalar (!invert)) pattern.ipsi
        (eligible.map (fun r => r.cells side_ipsi)) lnls invert
    else
      get_match_idx
        (get_match_idx (.scalar (!invert)) pattern.ipsi
          (eligible.map (fun r => r.cells side_ipsi)) lnls invert)
        pattern.contra (eligible.map (fun r => r.cells side_contra)) lnls invert
  match do_lnls_match with
  | .scalar _ => ((if invert then 0 else eligible.length), eligible.length)
  | .series bs => (bs.count true, eligible.length)

lemma constrained_levels_eq_nil_of_unconstrained (q : PatternF) :
    ∀ lnls : List String, (∀ l ∈ lnls, q l = none ∨ q l = some none) →
      constrained_levels q lnls = [] := by
  intro lnls
  induction lnls with
  | nil => intro _; rfl
  | cons l ls ih =>
      intro h
      rcases h l (List.mem_cons_self l ls) with hl | hl
      · rw [constrained_levels_cons_absent hl]
        exact ih (fun x hx => h x (List.mem_cons_of_mem l hx))
      · rw [constrained_levels_cons_unknown hl]
        exact ih (fun x hx => h x (List.mem_cons_of_mem l hx))

lemma get_match_idx_of_no_constraint {q : PatternF} {lnls : List String}
    (h : constrained_levels q lnls = []) (m : Mask) (data : List CellRow)
    (invert : Bool) : get_match_idx m q data lnls invert = m := by
  induction lnls generalizing m with
  | nil => rfl
  | cons l ls ih =>
      match hp : q l with
      | none =>
          rw [get_match_idx_cons_absent hp]
          exact ih (by rwa [constrained_levels_cons_absent hp] at h) m
      | some none =>
          rw [get_match_idx_cons_unknown hp]
          exact ih (by rwa [constrained_levels_cons_unknown hp] at h) m
      | some (some v) =>
          rw [constrained_levels_cons_val hp] at h
          exact absurd h (List.cons_ne_nil _ _)

lemma complete_side_unconstrained {p : PatternF} {lnls : List String}
    (h : ∀ l ∈ lnls, p l = none ∨ p l = some none) :
    ∀ l ∈ lnls, complete_side p lnls l = none ∨
      complete_side p lnls l = some none := by
  intro l hl
  right
  rcases h l hl with hp | hp <;> simp [complete_side, hl, hp]

/-- Embeds `calculate_midline_ext_prob`: the outer loop runs over the
diagnosis time steps, the inner loop accumulates the product of
`1 - midline_ext_prob_rates[t]` over the strictly earlier steps, the product
is weighted by the diagnosis time pmf and summed, and one minus the sum is
returned.  Out-of-range list reads default to `0`, which the callers never
trigger. -/
def calculate_midline_ext_prob (diag_prob : List ℚ)
    (midline_ext_prob_rates : List ℚ) : ℚ :=
  let num_timesteps := diag_prob.length
  let cumulative_probability :=
    (List.range num_timesteps).foldl
      (fun cum diagnosis_timestep =>
        let cumulative_probability_at_diagnosis :=
          (List.range diagnosis_timestep).foldl
            (fun c t => c * (1 - midline_ext_prob_rates.getD t 0)) 1
        cum + cumulative_probability_at_diagnosis *
          diag_prob.getD diagnosis_timestep 0)
      0
  1 - cumulative_probability

lemma foldl_add_range (f : ℕ → ℚ) :
    ∀ (n : ℕ) (init : ℚ),
      (List.range n).foldl (fun c t => c + f t) init =
        init + ∑ t ∈ Finset.range n, f t := by
  intro n
  induction n with
  | zero => intro init; simp
  | succ n ih =>
      intro init
      rw [List.range_succ, List.foldl_append, ih init, List.foldl_cons,
        List.foldl_nil, Finset.sum_range_succ, add_assoc]

lemma foldl_mul_range (g : ℕ → ℚ) :
    ∀ (n : ℕ) (init : ℚ),
      (List.range n).foldl (fun c t => c * g t) init =
        init * ∏ t ∈ Finset.range n, g t := by
  intro n
  induction n with
  | zero => intro init; simp
  | succ n ih =>
      intro init
      rw [List.range_succ, List.foldl_append, ih init, List.foldl_cons,
        List.foldl_nil, Finset.prod_range_succ, mul_assoc]

/-- Closed form of the nested loops of `calculate_midline_ext_prob`. -/
lemma calculate_midline_ext_prob_eq (diag_prob rates : List ℚ) :
    calculate_midline_ext_prob diag_prob rates =
      1 - ∑ t ∈ Finset.range diag_prob.length,
        diag_prob.getD t 0 * ∏ s ∈ Finset.range t, (1 - rates.getD s 0) := by
  unfold calculate_midline_ext_prob
  have hinner : ∀ dt : ℕ,
      (List.range dt).foldl (fun c t => c * (1 - rates.getD t 0)) 1 =
        ∏ s ∈ Finset.range dt, (1 - rates.getD s 0) := by
    intro dt
    rw [foldl_mul_range (fun t => 1 - rates.getD t 0) dt 1, one_mul]
  simp only [hinner]
  rw [foldl_add_range
    (fun dt => (∏ s ∈ Finset.range dt, (1 - rates.getD s 0)) *
      diag_prob.getD dt 0) diag_prob.length 0]
  rw [zero_add]
  congr 1
  exact Finset.sum_congr rfl (fun t _ => mul_comm _ _)

lemma sum_range_getD (l : List ℚ) :
    ∑ t ∈ Finset.range l.length, l.getD t 0 = l.sum := by
  induction l with
  | nil => simp
  | cons a tl ih =>
      rw [List.length_cons, Finset.sum_range_succ']
      simp only [List.getD_cons_succ, List.getD_cons_zero, List.sum_cons, ih]
      exact add_comm _ _

lemma getD_replicate_zero (n : ℕ) :
    ∀ i : ℕ, (List.replicate n (0 : ℚ)).getD i 0 = 0 := by
  induction n with
  | zero => intro i; simp
  | succ n ih =>
      intro i
      cases i with
      | zero => simp [List.replicate_succ]
      | succ i => simp [List.replicate_succ, ih i]

/-- The midline-capable bilateral model, an opaque external collaborator.
The `likelihood` method of the real model returns a pair of values (one per
synthetic patient row with and without midline extension) when the scenario
leaves `midline_ext` unknown, and a single value when it is fixed; the two
shapes are the two fields below.  `diag_time_pmf` is the diagnosis time pmf
of `ext.ipsi.diag_time_dists[t_stage]`, and `risk` is the posterior risk
method. -/
structure MidlineModel where
  likelihoodPair : List ℚ → Option String → ℚ × ℚ
  likelihoodScalar : List ℚ → Option String → ℚ
  diag_time_pmf : String → List ℚ
  risk : SidedPattern → SidedPattern → List ℚ → String → Bool → ℚ

/-- The model capability passed to the prediction functions.  The three
recognized `lymph` variants carry their `likelihood` and `risk` methods as
opaque functions of the parameter sample; `other` stands for an object that
is none of the three but still exposes a `likelihood` attribute, as Python
duck typing permits. -/
inductive LymphModel where
  | unilateral (likelihood : List ℚ → Option String → ℚ)
      (risk : PatternF → PatternF → List ℚ → String → ℚ)
  | bilateral (likelihood : List ℚ → Option String → ℚ)
      (risk : SidedPattern → SidedPattern → List ℚ → String → Bool → ℚ)
  | midlineBilateral (m : MidlineModel)
  | other (likelihood : List ℚ → Option String → ℚ)

/-- The element `given_params[-2]` of the parameter sample, from which the
per-step midline extension rate is replicated. -/
def neg_second (ps : List ℚ) : ℚ := ps.getD (ps.length - 2) 0

/-- The branch of `compute_predicted_prevalence` that handles every model
that is not a `lymph.MidlineBilateral` (the final `else` of the dispatch):
the likelihood itself, or the stage-weighted blend of the early and late
likelihoods when `t_stage` is the marginalization marker. -/
def simple_prevalence (likelihood : List ℚ → Option String → ℚ)
    (given_params : List ℚ) (t_stage : String) (early_prob : ℚ) : ℚ :=
  if t_stage == stage_early_late then
    early_prob * likelihood given_params (some stage_early) +
      (1 - early_prob) * likelihood given_params (some stage_late)
  else likelihood given_params none

/-- Embeds `compute_predicted_prevalence`.  A `lymph.MidlineBilateral` model
dispatches on `midline_ext`: `none` sums the two components of the paired
likelihood (stage-weighted when `t_stage` is `early/late`); a known
`midline_ext` divides the scalar likelihood by the cumulative midline
extension probability (or its complement), computed from the diagnosis time
pmf and the rate `given_params[-2]`.  The branches with a known `midline_ext`
rebind the name `midline_ext_prob` before any use, so the argument of that
name is never read.  Every other model falls into `simple_prevalence`. -/
def compute_predicted_prevalence (loaded_model : LymphModel)
    (given_params : List ℚ) (midline_ext : Option Bool) (t_stage : String)
    (midline_ext_prob : ℚ) (early_prob : ℚ) : ℚ :=
  match loaded_model with
  | .midlineBilateral m =>
      match midline_ext with
      | none =>
          if t_stage == stage_early_late then
            let early_llhs := m.likelihoodPair given_params (some stage_early)
            let late_llhs := m.likelihoodPair given_params (some stage_late)
            early_prob * early_llhs.1 + early_prob * early_llhs.2 +
              (1 - early_prob) * late_llhs.1 + (1 - early_prob) * late_llhs.2
          else
            let llhs := m.likelihoodPair given_params none
            llhs.1 + llhs.2
      | some true =>
          if t_stage == stage_early_late then
            let midline_ext_prob_early := calculate_midline_ext_prob
              (m.diag_time_pmf stage_early)
              (List.replicate (m.diag_time_pmf stage_early).length
                (neg_second given_params))
            let midline_ext_prob_late := calculate_midline_ext_prob
              (m.diag_time_pmf stage_late)
              (List.replicate (m.diag_time_pmf stage_late).length
                (neg_second given_params))
            early_prob * m.likelihoodScalar given_params (some stage_early) /
                midline_ext_prob_early +
              (1 - early_prob) * m.likelihoodScalar given_params (some stage_late) /
                midline_ext_prob_late
          else
            let new_midline_ext_prob := calculate_midline_ext_prob
              (m.diag_time_pmf t_stage)
              (List.replicate (m.diag_time_pmf t_stage).length
                (neg_second given_params))
            m.likelihoodScalar given_params none / new_midline_ext_prob
      | some false =>
          if t_stage == stage_early_late then
            let midline_ext_prob_early := calculate_midline_ext_prob
              (m.diag_time_pmf stage_early)
              (List.replicate (m.diag_time_pmf stage_early).length
                (neg_second given_params))
            let midline_ext_prob_late := calculate_midline_ext_prob
              (m.diag_time_pmf stage_late)
              (List.replicate (m.diag_time_pmf stage_late).length
                (neg_second given_params))
            early_prob * m.likelihoodScalar given_params (some stage_early) /
                (1 - midline_ext_prob_early) +
              (1 - early_prob) * m.likelihoodScalar given_params (some stage_late) /
                (1 - midline_ext_prob_late)
          else
            let new_midline_ext_prob := calculate_midline_ext_prob
              (m.diag_time_pmf t_stage)
              (List.replicate (m.diag_time_pmf t_stage).length
                (neg_second given_params))
            m.likelihoodScalar given_params none / (1 - new_midline_ext_prob)
  | .unilateral likelihood _ =>
      simple_prevalence likelihood given_params t_stage early_prob
  | .bilateral likelihood _ =>
      simple_prevalence likelihood given_params t_stage early_prob
  | .other likelihood =>
      simple_prevalence likelihood given_params t_stage early_prob

/-- Embeds `generate_predicted_prevalences`: one value per sample, the
prevalence of the sample or one minus it when `invert` is set.  The pattern
completion, the modality assignment and the synthetic patient row configure
the external model before the loop; that scenario-scoped setup is reflected
in the opaque likelihood fields of `model`, so `pattern` and `modality_spsn`
do not reappear in the per-sample computation. -/
def generate_predicted_prevalences (pattern : SidedPattern) (model : LymphModel)
    (samples : List (List ℚ)) (t_stage : String) (midline_ext : Option Bool)
    (midline_ext_prob : ℚ) (modality_spsn : Option (ℚ × ℚ)) (invert : Bool)
    (early_prob : ℚ) : List ℚ :=
  samples.map (fun sample =>
    let prevalence := compute_predicted_prevalence model sample midline_ext
      t_stage midline_ext_prob early_prob
    if invert then 1 - prevalence else prevalence)

/-- The message of the `TypeError` raised by `predicted_risk`. -/
def type_error_msg : String := "Provided model is no valid lymph model."

/-- Embeds `predicted_risk` of `lyscripts/predict/risks.py`: clean the
involvement and the optional given diagnosis, then dispatch on the model
variant.  A unilateral model receives the ipsilateral halves; the two
bilateral variants receive the sided patterns together with the
`midline_extension` flag; any other model raises a `TypeError`.  Each yielded
risk is inverted to `1 - risk` when `invert` is set.  The modality
sensitivity and specificity assignment configures the external model and is
reflected in its opaque `risk` field. -/
def predicted_risk (involvement : SidedPattern) (model : LymphModel)
    (samples : List (List ℚ)) (t_stage : String) (midline_ext : Bool)
    (given_diagnosis : Option SidedPattern)
    (given_diagnosis_spsn : Option (ℚ × ℚ)) (invert : Bool)
    (lnls : List String) : Except String (List ℚ) :=
  let involvement2 := clean_pattern (some involvement) lnls
  let given_diagnosis2 := clean_pattern given_diagnosis lnls
  match model with
  | .unilateral _ risk =>
      .ok (samples.map (fun sample =>
        let r := risk involvement2.ipsi given_diagnosis2.ipsi sample t_stage
        if invert then 1 - r else r))
  | .bilateral _ risk =>
      .ok (samples.map (fun sample =>
        let r := risk involvement2 given_diagnosis2 sample t_stage midline_ext
        if invert then 1 - r else r))
  | .midlineBilateral m =>
      .ok (samples.map (fun sample =>
        let r := m.risk involvement2 given_diagnosis2 sample t_stage midline_ext
        if invert then 1 - r else r))
  | .other _ => .error type_error_msg

/-- Embeds the Python slice `samples[::thin]` used by both `main` functions:
the elements at the original indices `0, n, 2n, ...`, in order. -/
def every_nth {α : Type} : List α → ℕ → List α
  | [], _ => []
  | x :: xs, n => x :: every_nth (xs.drop (n - 1)) n
termination_by l _ => l.length
decreasing_by
  simp_wf
  omega

lemma every_nth_nil {α : Type} (n : ℕ) : every_nth ([] : List α) n = [] := by
  simp [every_nth]

lemma every_nth_cons {α : Type} (x : α) (xs : List α) (n : ℕ) :
    every_nth (x :: xs) n = x :: every_nth (xs.drop (n - 1)) n := by
  simp [every_nth]

lemma every_nth_get_aux {α : Type} {n : ℕ} (hn : 1 ≤ n) :
    ∀ (k : ℕ) (l : List α), l.length ≤ k → ∀ i : ℕ,
      (every_nth l n).get? i = l.get? (i * n) := by
  intro k
  induction k with
  | zero =>
      intro l hl i
      have : l = [] := List.eq_nil_of_length_eq_zero (Nat.le_zero.mp hl)
      subst this
      simp [every_nth_nil]
  | succ k ih =>
      intro l hl i
      cases l with
      | nil => simp [every_nth_nil]
      | cons x xs =>
          cases i with
          | zero => simp [every_nth_cons]
          | succ i =>
              have hlen : (xs.drop (n - 1)).length ≤ k := by
                rw [List.length_drop]
                have := Nat.le_of_succ_le_succ hl
                omega
              have hmul : (i + 1) * n = i * n + n := by ring
              have harith : (n - 1) + i * n + 1 = (i + 1) * n := by omega
              rw [every_nth_cons, List.get?_cons_succ, ih (xs.drop (n - 1)) hlen i,
                List.get?_drop]
              rw [show (i + 1) * n = (n - 1 + i * n) + 1 from harith.symm]
              rw [List.get?_cons_succ]

/-- Thinning picks exactly the elements at the original indices that are
multiples of the stride. -/
lemma every_nth_get {α : Type} {n : ℕ} (hn : 1 ≤ n) (l : List α) (i : ℕ) :
    (every_nth l n).get? i = l.get? (i * n) :=
  every_nth_get_aux hn l.length l (le_refl _) i

lemma every_nth_length_aux {α : Type} {n : ℕ} (hn : 1 ≤ n) :
    ∀ (k : ℕ) (l : List α), l.length ≤ k →
      (every_nth l n).length = (l.length + n - 1) / n := by
  intro k
  induction k with
  | zero =>
      intro l hl
      have hnil : l = [] := List.eq_nil_of_length_eq_zero (Nat.le_zero.mp hl)
      subst hnil
      simp only [every_nth_nil, List.length_nil, Nat.zero_add]
      rw [Nat.div_eq_of_lt (by omega : n - 1 < n)]
  | succ k ih =>
      intro l hl
      cases l with
      | nil =>
          simp only [every_nth_nil, List.length_nil, Nat.zero_add]
          rw [Nat.div_eq_of_lt (by omega : n - 1 < n)]
      | cons x xs =>
          have hlen : (xs.drop (n - 1)).length ≤ k := by
            rw [List.length_drop]
            have := Nat.le_of_succ_le_succ hl
            omega
          rw [every_nth_cons, List.length_cons, ih (xs.drop (n - 1)) hlen,
            List.length_drop]
          simp only [List.length_cons]
          rcases Nat.le_total (n - 1) xs.length with hc | hc
          · have h1 : xs.length - (n - 1) + n - 1 = xs.length := by omega
            have h2 : xs.length + 1 + n - 1 = xs.length + n := by omega
            rw [h1, h2, Nat.add_div_right _ (by omega : 0 < n)]
          · have h1 : xs.length - (n - 1) = 0 := by omega
            have h2 : xs.length + 1 + n - 1 = xs.length + n := by omega
            rw [h1, h2, Nat.add_div_right _ (by omega : 0 < n),
              Nat.div_eq_of_lt (by omega : xs.length < n),
              Nat.div_eq_of_lt (by omega : 0 + n - 1 < n)]

/-- Length of the thinned sample sequence: the ceiling of
`length / stride`. -/
lemma every_nth_length {α : Type} {n : ℕ} (hn : 1 ≤ n) (l : List α) :
    (every_nth l n).length = (l.length + n - 1) / n :=
  every_nth_length_aux hn l.length l (le_refl _)

lemma zipWith_replicate_left {α : Type} (c : Bool) (F : Bool → α → Bool) :
    ∀ ds : List α,
      List.zipWith F (List.replicate ds.length c) ds = ds.map (F c) := by
  intro ds
  induction ds with
  | nil => simp
  | cons d ds ih => simp [List.replicate_succ, ih]

lemma row_mismatches_eq_not_matches (row : CellRow) :
    ∀ cs : List (String × Bool),
      row_mismatches_any row cs = !(row_matches_all row cs) := by
  intro cs
  induction cs with
  | nil => simp [row_mismatches_any, row_matches_all]
  | cons c cs ih =>
      simp [row_mismatches_any, row_matches_all, List.any_cons, List.all_cons,
        Bool.not_and, bne] at ih ⊢
      rw [ih]

/-- C1: `get_match_idx` skips every level absent from the pattern or mapped
to `None`; over the remaining constrained levels, normal mode AND-folds the
per-level equality tests onto the initial mask, inverted mode OR-folds the
per-level inequality tests onto it, and starting from the scalar `not invert`
(the broadcast all-true respectively all-false start used by
`compute_observed_prevalence`) the result row predicate is exactly the
conjunction of equality tests respectively the disjunction of inequality
tests. -/
theorem C1_get_match_idx_semantics (p : PatternF) (data : List CellRow)
    (lnls : List String) (init : List Bool) (h : init.length = data.length) :
    get_match_idx (.series init) p data lnls false =
      .series (List.zipWith
        (fun b r => b && row_matches_all r (constrained_levels p lnls))
        init data)
    ∧ get_match_idx (.series init) p data lnls true =
      .series (List.zipWith
        (fun b r => b || row_mismatches_any r (constrained_levels p lnls))
        init data)
    ∧ ∀ invert : Bool,
        get_match_idx (.scalar (!invert)) p data lnls invert =
          if (constrained_levels p lnls).isEmpty then .scalar (!invert)
          else .series (data.map (fun r =>
            if invert then row_mismatches_any r (constrained_levels p lnls)
            else row_matches_all r (constrained_levels p lnls))) := by
  refine ⟨get_match_idx_series_and p lnls init data h,
    get_match_idx_series_or p lnls init data h, ?_⟩
  intro invert
  cases invert with
  | false =>
      simp only [Bool.not_false]
      rw [get_match_idx_scalar_and p true lnls data]
      simp
  | true =>
      simp only [Bool.not_true]
      rw [get_match_idx_scalar_or p false lnls data]
      simp

/-- Concrete pattern fixture: level II constrained to `True`, level III
mapped to `None`, everything else absent. -/
def pat0 : PatternF :=
  fun l => if l = "II" then some (some true)
    else if l = "III" then some none else none

/-- Concrete cell row fixture: level II involved, everything else healthy. -/
def row0 : CellRow := fun l => if l = "II" then some true else some false

/-- Concrete cell row fixture: everything healthy. -/
def row1 : CellRow := fun _ => some false

/-- Concrete two-row data slice fixture. -/
def data0 : List CellRow := [row0, row1]

/-- Concrete level list fixture. -/
def lnls0 : List String := ["II", "III"]

theorem C1_witness :
    (get_match_idx (.series [true, true]) pat0 data0 lnls0 false =
      .series (List.zipWith
        (fun b r => b && row_matches_all r (constrained_levels pat0 lnls0))
        [true, true] data0))
    ∧ (get_match_idx (.series [true, true]) pat0 data0 lnls0 true =
      .series (List.zipWith
        (fun b r => b || row_mismatches_any r (constrained_levels pat0 lnls0))
        [true, true] data0))
    ∧ ∀ invert : Bool,
        get_match_idx (.scalar (!invert)) pat0 data0 lnls0 invert =
          if (constrained_levels pat0 lnls0).isEmpty then .scalar (!invert)
          else .series (data0.map (fun r =>
            if invert then row_mismatches_any r (constrained_levels pat0 lnls0)
            else row_matches_all r (constrained_levels pat0 lnls0))) :=
  C1_get_match_idx_semantics pat0 data0 lnls0 [true, true] rfl

/-- C8: for a pattern with exactly one constrained level, the inverted-mode
mask of `get_match_idx` started from the all-false series is the pointwise
logical negation of the normal-mode mask started from the all-true series. -/
theorem C8_single_level_negation (p : PatternF) (data : List CellRow)
    (lnls : List String) (h : (constrained_levels p lnls).length = 1) :
    get_match_idx (.series (List.replicate data.length false)) p data lnls true =
      mask_not (get_match_idx (.series (List.replicate data.length true))
        p data lnls false) := by
  rw [get_match_idx_series_or p lnls (List.replicate data.length false) data
        (by simp),
      get_match_idx_series_and p lnls (List.replicate data.length true) data
        (by simp)]
  rw [zipWith_replicate_left false
        (fun b r => b || row_mismatches_any r (constrained_levels p lnls)) data,
      zipWith_replicate_left true
        (fun b r => b && row_matches_all r (constrained_levels p lnls)) data]
  simp only [mask_not, List.map_map, Function.comp_def, Bool.false_or,
    Bool.true_and]
  simp only [row_mismatches_eq_not_matches]

/-- Concrete pattern fixture with exactly one constrained level: level II
constrained to `True`, every other level mapped to `None`. -/
def pat1 : PatternF := fun l => if l = "II" then some (some true) else some none

theorem C8_witness :
    get_match_idx (.series (List.replicate data0.length false)) pat1 data0
        lnls0 true =
      mask_not (get_match_idx (.series (List.replicate data0.length true))
        pat1 data0 lnls0 false) :=
  C8_single_level_negation pat1 data0 lnls0 (by decide)

/-- C5: when the completed pattern constrains no level of `lnls` on any
relevant side, the match index of `compute_observed_prevalence` stays the
Python scalar `not invert`, the pandas row lookup on that scalar raises the
caught `KeyError`, and the function returns all eligible rows as matches in
normal mode and zero matches in inverted mode, the second component being the
number of rows surviving the stage filter, the midline filter and the drop of
rows without usable diagnostic information. -/
theorem C5_no_constraint_counts (pattern : SidedPattern) (data : Table)
    (lnls : List String) (t_stage : String) (midline_ext : Option Bool)
    (invert : Bool)
    (hI : ∀ l ∈ lnls, pattern.ipsi l = none ∨ pattern.ipsi l = some none)
    (hC : data.bilateral = true →
      ∀ l ∈ lnls, pattern.contra l = none ∨ pattern.contra l = some none) :
    compute_observed_prevalence pattern data lnls t_stage midline_ext invert =
      ((if invert then 0 else (eligible_rows data t_stage midline_ext).length),
        (eligible_rows data t_stage midline_ext).length) := by
  have hI2 : constrained_levels (complete_side pattern.ipsi lnls) lnls = [] :=
    constrained_levels_eq_nil_of_unconstrained _ lnls
      (complete_side_unconstrained hI)
  unfold compute_observed_prevalence
  cases hb : data.bilateral with
  | false =>
      simp only [hb, Bool.not_false, if_true, complete_pattern]
      rw [get_match_idx_of_no_constraint hI2]
  | true =>
      have hC2 : constrained_levels (complete_side pattern.contra lnls)
          lnls = [] :=
        constrained_levels_eq_nil_of_unconstrained _ lnls
          (complete_side_unconstrained (hC hb))
      simp only [hb, Bool.not_true, Bool.false_eq_true, if_false,
        complete_pattern]
      rw [get_match_idx_of_no_constraint hI2, get_match_idx_of_no_constraint hC2]

/-- Concrete all-Unknown sided pattern fixture. -/
def patU : SidedPattern := ⟨fun _ => some none, fun _ => some none⟩

/-- Concrete unilateral clinical table fixture with two rows: an early-stage
patient with observed cells and a late-stage patient whose cells are all
`NaN`. -/
def tbl0 : Table :=
  ⟨false, ["II", "III"],
    [⟨"early", false, fun _ l => if l = "II" then some true else some false⟩,
     ⟨"late", false, fun _ _ => none⟩]⟩

theorem C5_witness :
    compute_observed_prevalence patU tbl0 lnls0 stage_early none false =
      ((if false then 0 else (eligible_rows tbl0 stage_early none).length),
        (eligible_rows tbl0 stage_early none).length) :=
  C5_no_constraint_counts patU tbl0 lnls0 stage_early none false
    (by decide) (by decide)

/-- C3: `calculate_midline_ext_prob` equals one minus the sum over the
diagnosis time steps of the pmf weight times the product of `1 - rate` over
the strictly earlier steps; consequently, with all rates zero and a
normalized pmf the result is zero.  The computation is a total function of
its two list arguments. -/
theorem C3_cumulative_closed_form (diag_prob rates : List ℚ)
    (h : diag_prob.length ≤ rates.length) :
    calculate_midline_ext_prob diag_prob rates =
      1 - ∑ t ∈ Finset.range diag_prob.length,
        diag_prob.getD t 0 * ∏ s ∈ Finset.range t, (1 - rates.getD s 0)
    ∧ ((∀ r ∈ rates, r = 0) → diag_prob.sum = 1 →
        calculate_midline_ext_prob diag_prob rates = 0) := by
  refine ⟨calculate_midline_ext_prob_eq diag_prob rates, ?_⟩
  intro hz hsum
  rw [calculate_midline_ext_prob_eq]
  have hr : ∀ s : ℕ, rates.getD s 0 = 0 := by
    intro s
    rcases Nat.lt_or_ge s rates.length with hs | hs
    · rw [List.getD_eq_getElem?_getD, List.getElem?_eq_getElem hs]
      exact hz _ (List.getElem_mem hs)
    · rw [List.getD_eq_getElem?_getD, List.getElem?_eq_none hs]
      rfl
  simp only [hr, sub_zero, Finset.prod_const_one, mul_one]
  rw [sum_range_getD, hsum, sub_self]

theorem C3_witness :
    (calculate_midline_ext_prob [1/2, 1/2] [0, 0] =
      1 - ∑ t ∈ Finset.range ([1/2, 1/2] : List ℚ).length,
        ([1/2, 1/2] : List ℚ).getD t 0 *
          ∏ s ∈ Finset.range t, (1 - ([0, 0] : List ℚ).getD s 0))
    ∧ ((∀ r ∈ ([0, 0] : List ℚ), r = 0) → ([1/2, 1/2] : List ℚ).sum = 1 →
        calculate_midline_ext_prob [1/2, 1/2] [0, 0] = 0) :=
  C3_cumulative_closed_form [1/2, 1/2] [0, 0] (by decide)

/-- C4 counterexample: with the whole pmf mass at step 0 and a nonzero rate
at step 0, `calculate_midline_ext_prob` returns 0, not the rate at step 0 as
the claim states (the inner product runs over the strictly earlier steps, of
which step 0 has none). -/
theorem C4_counterexample :
    calculate_midline_ext_prob [1] [3/10] = 0 ∧ (0 : ℚ) ≠ 3 / 10 := by
  constructor
  · rw [calculate_midline_ext_prob_eq]
    simp [Finset.sum_range_one]
  · norm_num

/-- C4 amended: for every rate sequence, if the diagnosis-time pmf puts all
of its mass at step 0, then `calculate_midline_ext_prob` returns 0 (no time
step precedes the diagnosis, so extension cannot have occurred yet). -/
theorem C4_amended_mass_at_zero (n : ℕ) (rates : List ℚ) :
    calculate_midline_ext_prob (1 :: List.replicate n 0) rates = 0 := by
  rw [calculate_midline_ext_prob_eq]
  have hlen : (1 :: List.replicate n (0 : ℚ)).length = n + 1 := by simp
  rw [hlen, Finset.sum_range_succ']
  simp [List.getD_cons_succ, List.getD_cons_zero, getD_replicate_zero]

/-- Concrete midline-capable model fixture whose paired likelihood is the
constant `(1/2, 1/4)`. -/
def mid0 : MidlineModel :=
  ⟨fun _ _ => (1/2, 1/4), fun _ _ => 0, fun _ => [], fun _ _ _ _ _ => 0⟩

/-- C2 counterexample: for a midline-capable model with paired likelihood
`(1/2, 1/4)` and `midline_ext_prob = 3/10`, the code returns the unweighted
sum `3/4`, not the `(midline_ext_prob, 1 - midline_ext_prob)` weighted
marginalization the claim states; the stage-marginalized case likewise uses
no midline weights. -/
theorem C2_counterexample :
    compute_predicted_prevalence (.midlineBilateral mid0) [] none stage_early
        (3/10) (1/2) = 3/4
    ∧ (3/4 : ℚ) ≠ 3/10 * (1/2) + (1 - 3/10) * (1/4)
    ∧ compute_predicted_prevalence (.midlineBilateral mid0) [] none
        stage_early_late (3/10) (1/2) = 3/4
    ∧ (3/4 : ℚ) ≠ (1/2) * (3/10 * (1/2) + (1 - 3/10) * (1/4)) +
        (1 - 1/2) * (3/10 * (1/2) + (1 - 3/10) * (1/4)) := by
  refine ⟨?_, by norm_num, ?_, by norm_num⟩
  · norm_num [compute_predicted_prevalence, mid0, stage_early, stage_early_late]
  · norm_num [compute_predicted_prevalence, mid0]

/-- C2 amended: for a midline-capable bilateral model with `midline_ext`
Unknown, `compute_predicted_prevalence` returns the unweighted sum of the two
components of the paired likelihood (the pair is already marginal over the
midline states); when `t_stage` is `early/late` the result is the
stage-weighted blend of those two sums with weights
`(early_prob, 1 - early_prob)`, and the `midline_ext_prob` argument is not
used. -/
theorem C2_amended_unweighted_sum (m : MidlineModel) (ps : List ℚ)
    (mep ep : ℚ) (t : String) (h : t ≠ stage_early_late) :
    compute_predicted_prevalence (.midlineBilateral m) ps none stage_early_late
        mep ep =
      ep * ((m.likelihoodPair ps (some stage_early)).1 +
          (m.likelihoodPair ps (some stage_early)).2) +
        (1 - ep) * ((m.likelihoodPair ps (some stage_late)).1 +
          (m.likelihoodPair ps (some stage_late)).2)
    ∧ compute_predicted_prevalence (.midlineBilateral m) ps none t mep ep =
      (m.likelihoodPair ps none).1 + (m.likelihoodPair ps none).2 := by
  constructor
  · simp only [compute_predicted_prevalence, beq_self_eq_true, if_true]
    ring
  · have hb : (t == stage_early_late) = false := by
      simp [beq_iff_eq, h]
    simp only [compute_predicted_prevalence, hb, Bool.false_eq_true, if_false]

theorem C2_witness :
    (compute_predicted_prevalence (.midlineBilateral mid0) [] none
        stage_early_late 0 (1/2) =
      (1/2) * ((mid0.likelihoodPair [] (some stage_early)).1 +
          (mid0.likelihoodPair [] (some stage_early)).2) +
        (1 - 1/2) * ((mid0.likelihoodPair [] (some stage_late)).1 +
          (mid0.likelihoodPair [] (some stage_late)).2))
    ∧ compute_predicted_prevalence (.midlineBilateral mid0) [] none
        stage_early 0 (1/2) =
      (mid0.likelihoodPair [] none).1 + (mid0.likelihoodPair [] none).2 :=
  C2_amended_unweighted_sum mid0 [] 0 (1/2) stage_early (by decide)

/-- C6: for identical arguments, the values yielded with `invert = true` are
pointwise one minus the values yielded with `invert = false`, both for the
prevalence stream of `generate_predicted_prevalences` and for the risk
stream of `predicted_risk` (including the error case, where both sides raise
the same `TypeError`). -/
theorem C6_inversion_law (pattern : SidedPattern) (model : LymphModel)
    (samples : List (List ℚ)) (t_stage : String) (midline_ext : Option Bool)
    (midline_ext_prob : ℚ) (modality_spsn : Option (ℚ × ℚ)) (early_prob : ℚ)
    (involvement : SidedPattern) (midline_ext_b : Bool)
    (given_diagnosis : Option SidedPattern) (spsn2 : Option (ℚ × ℚ))
    (lnls : List String) :
    generate_predicted_prevalences pattern model samples t_stage midline_ext
        midline_ext_prob modality_spsn true early_prob =
      (generate_predicted_prevalences pattern model samples t_stage midline_ext
        midline_ext_prob modality_spsn false early_prob).map (fun p => 1 - p)
    ∧ predicted_risk involvement model samples t_stage midline_ext_b
        given_diagnosis spsn2 true lnls =
      (predicted_risk involvement model samples t_stage midline_ext_b
        given_diagnosis spsn2 false lnls).map
          (fun vals => vals.map (fun r => 1 - r)) := by
  constructor
  · simp [generate_predicted_prevalences, List.map_map]
  · cases model <;> simp [predicted_risk, Except.map, List.map_map]

/-- C7 counterexample: a model that is none of the three recognized variants
but exposes a likelihood attribute is evaluated by
`compute_predicted_prevalence` through the plain-likelihood branch without
any error, returning `1/2` here, while `predicted_risk` does raise the
`TypeError` for the same model.  This refutes the half of the claim that
says the prevalence prediction fails with a `TypeError`-class error for
unrecognized models. -/
theorem C7_counterexample :
    compute_predicted_prevalence (.other (fun _ _ => 1/2)) [] (some true)
        stage_early 0 0 = 1/2
    ∧ predicted_risk patU (.other (fun _ _ => 1/2)) [[]] stage_early false
        none none false [] = .error type_error_msg := by
  constructor
  · norm_num [compute_predicted_prevalence, simple_prevalence, stage_early,
      stage_early_late]
  · rfl

/-- C7 amended: `predicted_risk` raises the `TypeError` exactly when the
model is none of the three recognized laterality variants and yields a
result for each recognized variant, while `compute_predicted_prevalence`
never raises a model-dispatch error: every model that is not a
`lymph.MidlineBilateral`, recognized or not, is evaluated through the
plain-likelihood branch. -/
theorem C7_amended_dispatch :
    (∀ (f : List ℚ → Option String → ℚ) (inv : SidedPattern)
        (samples : List (List ℚ)) (t : String) (me : Bool)
        (gd : Option SidedPattern) (spsn : Option (ℚ × ℚ)) (invert : Bool)
        (lnls : List String),
      predicted_risk inv (.other f) samples t me gd spsn invert lnls =
        .error type_error_msg)
    ∧ (∀ (lik : List ℚ → Option String → ℚ)
        (rk : PatternF → PatternF → List ℚ → String → ℚ)
        (inv : SidedPattern) (samples : List (List ℚ)) (t : String) (me : Bool)
        (gd : Option SidedPattern) (spsn : Option (ℚ × ℚ)) (invert : Bool)
        (lnls : List String), ∃ vals,
      predicted_risk inv (.unilateral lik rk) samples t me gd spsn invert
        lnls = .ok vals)
    ∧ (∀ (lik : List ℚ → Option String → ℚ)
        (rk : SidedPattern → SidedPattern → List ℚ → String → Bool → ℚ)
        (inv : SidedPattern) (samples : List (List ℚ)) (t : String) (me : Bool)
        (gd : Option SidedPattern) (spsn : Option (ℚ × ℚ)) (invert : Bool)
        (lnls : List String), ∃ vals,
      predicted_risk inv (.bilateral lik rk) samples t me gd spsn invert
        lnls = .ok vals)
    ∧ (∀ (m : MidlineModel) (inv : SidedPattern) (samples : List (List ℚ))
        (t : String) (me : Bool) (gd : Option SidedPattern)
        (spsn : Option (ℚ × ℚ)) (invert : Bool) (lnls : List String), ∃ vals,
      predicted_risk inv (.midlineBilateral m) samples t me gd spsn invert
        lnls = .ok vals)
    ∧ (∀ (f : List ℚ → Option String → ℚ) (ps : List ℚ)
        (me : Option Bool) (t : String) (mep ep : ℚ),
      compute_predicted_prevalence (.other f) ps me t mep ep =
        simple_prevalence f ps t ep) :=
  ⟨fun _ _ _ _ _ _ _ _ _ => rfl,
   fun _ _ _ _ _ _ _ _ _ _ => ⟨_, rfl⟩,
   fun _ _ _ _ _ _ _ _ _ _ => ⟨_, rfl⟩,
   fun _ _ _ _ _ _ _ _ _ => ⟨_, rfl⟩,
   fun _ _ _ _ _ _ => rfl⟩

/-- C9: thinning with stride `n` keeps exactly the samples at the original
indices `0, n, 2n, ...` in order; the prevalence stream over the thinned
samples has one value per selected sample, a risk stream that yields values
has one value per selected sample, and a stride of 2 over 100 samples keeps
exactly 50 of them. -/
theorem C9_thinning (samples : List (List ℚ)) (n : ℕ) (hn : 1 ≤ n)
    (pattern : SidedPattern) (model : LymphModel) (t_stage : String)
    (midline_ext : Option Bool) (midline_ext_prob : ℚ)
    (modality_spsn : Option (ℚ × ℚ)) (invert : Bool) (early_prob : ℚ)
    (involvement : SidedPattern) (midline_ext_b : Bool)
    (given_diagnosis : Option SidedPattern) (spsn2 : Option (ℚ × ℚ))
    (lnls : List String) :
    (∀ i : ℕ, (every_nth samples n).get? i = samples.get? (i * n))
    ∧ (every_nth samples n).length = (samples.length + n - 1) / n
    ∧ (generate_predicted_prevalences pattern model (every_nth samples n)
        t_stage midline_ext midline_ext_prob modality_spsn invert
        early_prob).length = (every_nth samples n).length
    ∧ (∀ vals, predicted_risk involvement model (every_nth samples n) t_stage
        midline_ext_b given_diagnosis spsn2 invert lnls = .ok vals →
        vals.length = (every_nth samples n).length)
    ∧ (samples.length = 100 → n = 2 → (every_nth samples n).length = 50) := by
  refine ⟨every_nth_get hn samples, every_nth_length hn samples,
    by simp [generate_predicted_prevalences], ?_, ?_⟩
  · intro vals hv
    cases model <;> simp [predicted_risk] at hv <;> simp [← hv]
  · intro h100 h2
    subst h2
    rw [every_nth_length hn samples, h100]

/-- Concrete unrecognized-model fixture with a constant likelihood. -/
def other0 : LymphModel := .other (fun _ _ => 0)

theorem C9_witness :
    (∀ i : ℕ, (every_nth (List.replicate 100 ([] : List ℚ)) 2).get? i =
      (List.replicate 100 ([] : List ℚ)).get? (i * 2))
    ∧ (every_nth (List.replicate 100 ([] : List ℚ)) 2).length =
      ((List.replicate 100 ([] : List ℚ)).length + 2 - 1) / 2
    ∧ (generate_predicted_prevalences patU other0
        (every_nth (List.replicate 100 ([] : List ℚ)) 2) stage_early none 0
        none false 0).length =
      (every_nth (List.replicate 100 ([] : List ℚ)) 2).length
    ∧ (∀ vals, predicted_risk patU other0
        (every_nth (List.replicate 100 ([] : List ℚ)) 2) stage_early false
        none none false [] = .ok vals →
        vals.length = (every_nth (List.replicate 100 ([] : List ℚ)) 2).length)
    ∧ ((List.replicate 100 ([] : List ℚ)).length = 100 → 2 = 2 →
        (every_nth (List.replicate 100 ([] : List ℚ)) 2).length = 50) :=
  C9_thinning (List.replicate 100 []) 2 (by decide) patU other0 stage_early
    none 0 none false 0 patU false none none []

/-- C10: `compute_predicted_prevalence` is independent of its
`midline_ext_prob` argument: in the branches with a known `midline_ext` the
name is rebound to the output of `calculate_midline_ext_prob` before any
use, and in every other branch it is never read, so two runs that differ
only in this argument return the same prevalence. -/
theorem C10_midline_ext_prob_unused (model : LymphModel) (ps : List ℚ)
    (midline_ext : Option Bool) (t_stage : String) (ep a b : ℚ) :
    compute_predicted_prevalence model ps midline_ext t_stage a ep =
      compute_predicted_prevalence model ps midline_ext t_stage b ep := rfl
